import Mathlib

/-!
Shallow embedding of the orian_simulation trading engine: market data
handling (`market.py`), wallet/ledger and transaction machinery
(`transaction.py`), strategies (`strategy.py`), the simulation loop
(`simulation.py`) and the report (`report.py`), together with theorems
checking the specified properties of the engine against the embedded code.

Modelling conventions:
- Python floats are embedded as rationals (exact field arithmetic).
- pandas Timestamps at day granularity are embedded as integers counting
  days; `Timedelta.days` becomes integer subtraction.
- Python runtime errors (KeyError, IndexError, ZeroDivisionError,
  ValueError) are embedded through `Except PyError`.
- Python dictionaries keyed by Asset/Currency objects are embedded as
  association lists.  Asset and Currency compare by `name` only (their
  `__eq__`/`__hash__` ignore every other attribute and do not distinguish
  the two classes), so every dictionary operation below compares keys by
  name across the Asset/Currency distinction.
-/

/-- Modelled from the spec: `PredictionEnum` is defined in
`orian_simulation/trading/prediction.py`, a file missing from the sources at
hand (only its importers are available); the spec lists its values as
INCREASE, DECREASE, STABLE, UNKNOWN. -/
inductive PredictionEnum where
  | INCREASE
  | DECREASE
  | STABLE
  | UNKNOWN
  deriving DecidableEq

/-- `TransactionEnum` from `transaction.py`. -/
inductive TransactionEnum where
  | SELL
  | BUY
  | HOLD
  deriving DecidableEq

/-- `Asset` from `market.py`. -/
structure Asset where
  name : String
  allow_float_amount : Bool
  deriving DecidableEq

/-- `Currency` from `market.py`. -/
structure Currency where
  name : String
  deriving DecidableEq

/-- A key of the wallet's `amounts` dictionary: Python's
`Union[Asset, Currency]`.  Python compares these keys by name only, so the
dictionary operations below go through `MarketKey.keyName`. -/
inductive MarketKey where
  | asset (a : Asset)
  | currency (c : Currency)
  deriving DecidableEq

def MarketKey.keyName : MarketKey → String
  | .asset a => a.name
  | .currency c => c.name

/-- Python runtime errors raised by the embedded code. -/
inductive PyError where
  | keyError
  | indexError
  | zeroDivisionError
  | valueError (msg : String)
  deriving DecidableEq

instance instDecEqExcept {ε α : Type} [DecidableEq ε] [DecidableEq α] :
    DecidableEq (Except ε α) :=
  fun a b =>
    match a, b with
    | .ok x, .ok y => decidable_of_iff (x = y) ⟨fun h => by rw [h], fun h => by cases h; rfl⟩
    | .error x, .error y =>
      decidable_of_iff (x = y) ⟨fun h => by rw [h], fun h => by cases h; rfl⟩
    | .ok _, .error _ => isFalse (fun h => by cases h)
    | .error _, .ok _ => isFalse (fun h => by cases h)

/-- `TransactionDTO` from `transaction.py`.  The `asset_amount` field is
`None` in Python until a quantity manager fills it in; it is embedded as a
rational (initialised to 0 where Python writes `None`), since every code
path that reads it goes through a quantity manager that overwrites it. -/
structure TransactionDTO where
  transaction_type : TransactionEnum
  asset : Asset
  currency : Currency
  asset_price : ℚ
  asset_amount : ℚ
  transaction_date : Int
  strategy_name : String
  deriving DecidableEq

/-- Dictionary lookup in the wallet's `amounts`, by key name. -/
def lookupAmount : List (MarketKey × ℚ) → String → Option ℚ
  | [], _ => none
  | p :: m, k => if p.1.keyName = k then some p.2 else lookupAmount m k

/-- In-place `amounts[k] += d` on the wallet dictionary: every entry whose
key has name `k` (unique in an actual Python dict) is incremented. -/
def addAmount : List (MarketKey × ℚ) → String → ℚ → List (MarketKey × ℚ)
  | [], _, _ => []
  | p :: m, k, d => (if p.1.keyName = k then (p.1, p.2 + d) else p) :: addAmount m k d

/-- `Wallet` from `transaction.py`. -/
structure Wallet where
  amounts : List (MarketKey × ℚ)
  base_currency : Currency
  deriving DecidableEq

/-- `Wallet.__post_init__`: insert the base currency with amount 0 when it
is not already a key of `amounts`. -/
def Wallet.postInit (amounts : List (MarketKey × ℚ)) (base : Currency) : Wallet :=
  match lookupAmount amounts base.name with
  | some _ => ⟨amounts, base⟩
  | none => ⟨amounts ++ [(.currency base, 0)], base⟩

/-- `Wallet.update_wallet` from `transaction.py`. -/
def Wallet.update_wallet (w : Wallet) (t : TransactionDTO) : Except PyError Wallet :=
  match lookupAmount w.amounts t.asset.name with
  | none => .error (.valueError ("Asset " ++ t.asset.name ++ " is not available in wallet"))
  | some _ =>
    let currency_amount := t.asset_amount * t.asset_price
    if t.transaction_type = .SELL then
      let m1 := addAmount w.amounts t.asset.name (-t.asset_amount)
      .ok { w with amounts := addAmount m1 w.base_currency.name currency_amount }
    else if t.transaction_type = .BUY then
      let m1 := addAmount w.amounts t.asset.name t.asset_amount
      .ok { w with amounts := addAmount m1 w.base_currency.name (-currency_amount) }
    else
      .ok w

/-- Python list slicing `xs[-r:]` for a non-negative int `r`: the last `r`
elements when `r > 0`, but the whole list when `r = 0` (since `-0 == 0`,
the slice `xs[0:]` is taken). -/
def pyTailSlice (r : Nat) (xs : List α) : List α :=
  if r = 0 then xs else xs.drop (xs.length - r)

/-- `TransactionTriggerByRepeatedPredictions.evaluate_predictions` from
`transaction.py`, with the trigger's `repetitions` attribute passed
explicitly. -/
def TransactionTriggerByRepeatedPredictions.evaluate_predictions
    (repetitions : Nat) (prediction_dto_history : List PredictionEnum) : TransactionEnum :=
  let last_predictions := pyTailSlice repetitions prediction_dto_history
  if last_predictions.all (· == PredictionEnum.INCREASE) then .BUY
  else if last_predictions.all (· == PredictionEnum.DECREASE) then .SELL
  else .HOLD

/-- The last `min R (length xs)` entries of `xs` (`drop` of a truncated
subtraction computes exactly that many trailing elements). -/
def lastMinEntries (R : Nat) (xs : List α) : List α :=
  xs.drop (xs.length - R)

/-- The repeated-predictions trigger as the claim words it: inspect the
last `min R (log length)` entries; BUY iff all of them are INCREASE, SELL
iff all of them are DECREASE, otherwise HOLD.  Written from the claim's
words, for comparison with
`TransactionTriggerByRepeatedPredictions.evaluate_predictions`. -/
def repeatedTriggerSpec (R : Nat) (xs : List PredictionEnum) : TransactionEnum :=
  if (lastMinEntries R xs).all (· == PredictionEnum.INCREASE) then .BUY
  else if (lastMinEntries R xs).all (· == PredictionEnum.DECREASE) then .SELL
  else .HOLD

/-- Python `int(x)` applied to a float: truncation toward zero. -/
def pyInt (q : ℚ) : Int :=
  if 0 ≤ q then ⌊q⌋ else ⌈q⌉

/-- The `if/elif/else` block of
`TransactionQuantityManagerByWalletPercentage.compute_asset_amount` in
`transaction.py`, computing the raw (pre-truncation) asset amount.  A zero
asset price makes the Python `/` raise ZeroDivisionError. -/
def TransactionQuantityManagerByWalletPercentage.raw_asset_amount
    (wallet : Wallet) (percentage : ℚ) (t : TransactionDTO) : Except PyError ℚ :=
  if t.transaction_type = .BUY then
    match lookupAmount wallet.amounts wallet.base_currency.name with
    | none => .error .keyError
    | some currency_amount =>
      if t.asset_price = 0 then .error .zeroDivisionError
      else .ok (currency_amount * percentage / t.asset_price)
  else if t.transaction_type = .SELL then
    match lookupAmount wallet.amounts t.asset.name with
    | none => .error .keyError
    | some wallet_asset_amount => .ok (wallet_asset_amount * percentage)
  else .ok 0

/-- `TransactionQuantityManagerByWalletPercentage.compute_asset_amount`
from `transaction.py`, with the manager's `wallet` and `percentage`
attributes passed explicitly: compute the raw amount, truncate it for
non-fractional assets, and write it into the transaction. -/
def TransactionQuantityManagerByWalletPercentage.compute_asset_amount
    (wallet : Wallet) (percentage : ℚ) (t : TransactionDTO) :
    Except PyError TransactionDTO :=
  match TransactionQuantityManagerByWalletPercentage.raw_asset_amount wallet percentage t with
  | .error e => .error e
  | .ok asset_amount =>
    let amount2 :=
      if !t.asset.allow_float_amount then ((pyInt asset_amount : ℚ)) else asset_amount
    .ok { t with asset_amount := amount2 }

/-- The `if/elif/else` block of
`TransactionQuantityManagerByFixedAmount.compute_asset_amount` in
`transaction.py`, computing the asset amount from the (already truncated)
fixed amount. -/
def TransactionQuantityManagerByFixedAmount.raw_asset_amount
    (wallet : Wallet) (fixed : ℚ) (t : TransactionDTO) : Except PyError ℚ :=
  if t.transaction_type = .BUY then
    match lookupAmount wallet.amounts wallet.base_currency.name with
    | none => .error .keyError
    | some wallet_currency_amount =>
      if t.asset_price = 0 then .error .zeroDivisionError
      else .ok (min wallet_currency_amount fixed / t.asset_price)
  else if t.transaction_type = .SELL then
    match lookupAmount wallet.amounts t.asset.name with
    | none => .error .keyError
    | some wallet_asset_amount => .ok (min wallet_asset_amount fixed)
  else .ok 0

/-- `TransactionQuantityManagerByFixedAmount.compute_asset_amount` from
`transaction.py`, with the manager's `wallet` and `fixed_amount`
attributes passed explicitly.  Note that only the configured fixed amount
is truncated for non-fractional assets, before the `min`; the quotient
computed on BUY is not truncated. -/
def TransactionQuantityManagerByFixedAmount.compute_asset_amount
    (wallet : Wallet) (fixed_amount : ℚ) (t : TransactionDTO) :
    Except PyError TransactionDTO :=
  let fixed :=
    if !t.asset.allow_float_amount then ((pyInt fixed_amount : ℚ)) else fixed_amount
  match TransactionQuantityManagerByFixedAmount.raw_asset_amount wallet fixed t with
  | .error e => .error e
  | .ok asset_amount => .ok { t with asset_amount := asset_amount }

/-- The `stock_market_dict` of `StockMarketHandler`: per-asset ordered
series of (date, closing price) rows. -/
abbrev StockMarketDict := List (Asset × List (Int × ℚ))

/-- Dictionary lookup in a stock market dictionary, by asset name (Asset
equality and hashing are by name). -/
def lookupSeries : StockMarketDict → String → Option (List (Int × ℚ))
  | [], _ => none
  | p :: m, n => if p.1.name = n then some p.2 else lookupSeries m n

/-- pandas `df.loc[:date]` on a monotonically increasing DateTime index:
the leading rows dated at or before `date`. -/
def locUpTo (rows : List (Int × ℚ)) (date : Int) : List (Int × ℚ) :=
  rows.takeWhile (fun row => decide (row.1 ≤ date))

/-- `StockMarketHandler._get_unique_dates` from `market.py`: the sorted
set of dates appearing in any asset's series. -/
def StockMarketHandler.get_unique_dates (m : StockMarketDict) : List Int :=
  List.insertionSort (fun a b => a ≤ b) ((m.map (fun p => p.2.map Prod.fst)).flatten.dedup)

/-- `StockMarketHandler.stock_market_generator` from `market.py`: for each
unique date, yield the date together with every asset's series truncated
to that date. -/
def StockMarketHandler.stock_market_generator (m : StockMarketDict) :
    List (Int × StockMarketDict) :=
  (StockMarketHandler.get_unique_dates m).map
    (fun date => (date, m.map (fun p => (p.1, locUpTo p.2 date))))

/-- `StockMarketHandler.get_asset_price` from `market.py`.  The guard
condition reads `date < self.stock_market_dict[asset].index[0] or asset
not in self.stock_market_dict`: the subscript in the first disjunct is
evaluated first, so an unknown asset raises KeyError before the membership
test in the second disjunct can run; when the asset is known the second
disjunct is False. -/
def StockMarketHandler.get_asset_price (m : StockMarketDict) (asset : Asset)
    (date : Int) : Except PyError (Option ℚ) :=
  match lookupSeries m asset.name with
  | none => .error .keyError
  | some rows =>
    match rows.head? with
    | none => .error .indexError
    | some first =>
      if date < first.1 then .ok none
      else
        match (locUpTo rows date).getLast? with
        | none => .error .indexError
        | some row => .ok (some row.2)

/-- `AutomatedStrategy` from `strategy.py`.  The polymorphic collaborators
are embedded as the functions the strategy calls on them:
`trading_algorithm` stands for `trading_algorithm.make_prediction`,
`transaction_trigger` for `transaction_trigger.evaluate_predictions`, and
the two quantity managers for their `compute_asset_amount` methods (taking
the wallet they were constructed over as an argument). -/
structure AutomatedStrategy where
  name : String
  trading_asset : Asset
  priority : Int
  trading_algorithm : List (Int × ℚ) → PredictionEnum
  transaction_trigger : List PredictionEnum → TransactionEnum
  buy_transaction_quantity_manager : Wallet → TransactionDTO → Except PyError TransactionDTO
  sell_transaction_quantity_manager : Wallet → TransactionDTO → Except PyError TransactionDTO

/-- `AutomatedStrategy.make_transaction` from `strategy.py`, with the
strategy's mutable `predictions` list passed in and the grown list
returned alongside the optional transaction. -/
def AutomatedStrategy.make_transaction (s : AutomatedStrategy)
    (predictions : List PredictionEnum) (stock_market_data : List (Int × ℚ))
    (wallet : Wallet) :
    Except PyError (Option TransactionDTO × List PredictionEnum) :=
  let prediction := s.trading_algorithm stock_market_data
  let predictions2 := predictions ++ [prediction]
  let transaction_type := s.transaction_trigger predictions2
  if transaction_type = .HOLD then .ok (none, predictions2)
  else
    match stock_market_data.getLast? with
    | none => .error .indexError
    | some lastRow =>
      let dto : TransactionDTO :=
        { transaction_type := transaction_type
          currency := wallet.base_currency
          asset := s.trading_asset
          asset_price := lastRow.2
          asset_amount := 0
          transaction_date := lastRow.1
          strategy_name := s.name }
      if transaction_type = .BUY then
        (s.buy_transaction_quantity_manager wallet dto).map (fun d => (some d, predictions2))
      else if transaction_type = .SELL then
        (s.sell_transaction_quantity_manager wallet dto).map (fun d => (some d, predictions2))
      else .ok (some dto, predictions2)

/-- `WalletUpdate` from `simulation.py`. -/
structure WalletUpdate where
  time : Int
  wallet_amounts : List (MarketKey × ℚ)
  transaction_dto : TransactionDTO
  balance : ℚ
  deriving DecidableEq

/-- `OnlineSimulation._get_wallet_balance` from `simulation.py`: the
mark-to-market value of the wallet, skipping Currency keys and assets
whose price comes back unavailable, plus the base currency balance. -/
def OnlineSimulation.get_wallet_balance (handler : StockMarketDict) (w : Wallet)
    (date : Int) : Except PyError ℚ := do
  let balance ← w.amounts.foldlM
    (fun (acc : ℚ) p =>
      match p.1 with
      | MarketKey.currency _ => pure acc
      | MarketKey.asset a => do
        match ← StockMarketHandler.get_asset_price handler a date with
        | none => pure acc
        | some price => pure (acc + price * p.2)) 0
  match lookupAmount w.amounts w.base_currency.name with
  | none => .error .keyError
  | some c => pure (balance + c)

/-- A strategy together with its accumulating prediction log
(`self.predictions`). -/
structure StrategyState where
  cfg : AutomatedStrategy
  predictions : List PredictionEnum

/-- The body of the inner loop of `OnlineSimulation.run_simulation`
(lines 64-92 of `simulation.py`) for one strategy on one tick: look the
strategy's asset up in the snapshot, skip on an empty slice, skip on
staleness, otherwise run the strategy, apply a resulting transaction to
the wallet and append a `WalletUpdate`. -/
def OnlineSimulation.process_strategy (handler : StockMarketDict)
    (max_transaction_date_difference : Int) (current_date : Int)
    (stock_market_dict : StockMarketDict) (wallet : Wallet)
    (history : List WalletUpdate) (s : StrategyState) :
    Except PyError (Wallet × List WalletUpdate × StrategyState) :=
  match lookupSeries stock_market_dict s.cfg.trading_asset.name with
  | none => .error .keyError
  | some stock_market_data =>
    if stock_market_data.length = 0 then .ok (wallet, history, s)
    else
      match stock_market_data.getLast? with
      | none => .error .indexError
      | some lastRow =>
        let date_difference := current_date - lastRow.1
        if max_transaction_date_difference < date_difference then
          .ok (wallet, history, s)
        else do
          let res ← s.cfg.make_transaction s.predictions stock_market_data wallet
          match res.1 with
          | none => .ok (wallet, history, { s with predictions := res.2 })
          | some transaction => do
            let w2 ← wallet.update_wallet transaction
            let bal ← OnlineSimulation.get_wallet_balance handler w2 current_date
            .ok (w2,
                 history ++ [{ time := current_date, wallet_amounts := w2.amounts,
                               transaction_dto := transaction, balance := bal }],
                 { s with predictions := res.2 })

/-- The comparison behind `sorted(self.strategies, key=lambda s:
s.priority)` on index-tagged strategies: ascending priority.  Python's
sort is stable, and `List.insertionSort` with this relation produces the
unique stable ascending-priority reordering. -/
def priorityLe (a b : Nat × StrategyState) : Prop :=
  a.2.cfg.priority ≤ b.2.cfg.priority

instance : DecidableRel priorityLe :=
  fun a b => decidable_of_iff (a.2.cfg.priority ≤ b.2.cfg.priority) Iff.rfl

instance : IsTotal (Nat × StrategyState) priorityLe :=
  ⟨fun a b => Int.le_total a.2.cfg.priority b.2.cfg.priority⟩

instance : IsTrans (Nat × StrategyState) priorityLe :=
  ⟨fun _ _ _ h1 h2 => le_trans h1 h2⟩

/-- The engine state mutated by the simulation loop: the wallet, the
append-only history, and each registered strategy's prediction log (in
registration order). -/
structure SimState where
  wallet : Wallet
  history : List WalletUpdate
  strategies : List StrategyState

/-- One tick of `OnlineSimulation.run_simulation`: visit the strategies
sorted by ascending priority (stable on registration order) and process
each one. -/
def OnlineSimulation.process_tick (handler : StockMarketDict)
    (max_transaction_date_difference : Int) (st : SimState)
    (current_date : Int) (stock_market_dict : StockMarketDict) :
    Except PyError SimState :=
  (List.insertionSort priorityLe st.strategies.enum).foldlM
    (fun acc p => do
      let r ← OnlineSimulation.process_strategy handler max_transaction_date_difference
        current_date stock_market_dict acc.wallet acc.history p.2
      Except.ok { wallet := r.1, history := r.2.1, strategies := acc.strategies.set p.1 r.2.2 })
    st

/-- The default of the `max_transaction_date_difference` parameter of
`OnlineSimulation.__init__`. -/
def OnlineSimulation.default_max_transaction_date_difference : Int := 2

/-- `OnlineSimulation.run_simulation` from `simulation.py`: fold the ticks
produced by the stock market generator over the engine state. -/
def OnlineSimulation.run_simulation (handler : StockMarketDict)
    (max_transaction_date_difference : Int) (st : SimState) :
    Except PyError SimState :=
  (StockMarketHandler.stock_market_generator handler).foldlM
    (fun acc p =>
      OnlineSimulation.process_tick handler max_transaction_date_difference acc p.1 p.2)
    st

/-- The dictionary returned by `Report.generate_report` in `report.py`. -/
structure ReportMetrics where
  roi : ℚ
  net_profit : ℚ
  max_profit : ℚ
  max_loss : ℚ
  total_transactions : Nat
  total_buy_transactions : Nat
  total_sell_transactions : Nat
  deriving DecidableEq

/-- `Report.generate_report` from `report.py`, over the balance and
transaction histories the `Report` constructor extracts.  On an empty
history `balance_history[0]` raises IndexError; on a zero initial balance
the `roi` division raises ZeroDivisionError. -/
def Report.generate_report (balance_history : List ℚ)
    (transaction_history : List TransactionEnum) : Except PyError ReportMetrics :=
  match balance_history with
  | [] => .error .indexError
  | b :: bs =>
    let initial_balance := b
    let final_balance := (b :: bs).getLast (List.cons_ne_nil b bs)
    if initial_balance = 0 then .error .zeroDivisionError
    else
      .ok { roi := (final_balance - initial_balance) / initial_balance
            net_profit := final_balance - initial_balance
            max_profit := bs.foldl max b - initial_balance
            max_loss := bs.foldl min b - initial_balance
            total_transactions := transaction_history.length
            total_buy_transactions :=
              (transaction_history.filter (· == TransactionEnum.BUY)).length
            total_sell_transactions :=
              (transaction_history.filter (· == TransactionEnum.SELL)).length }

/-- The `Report` constructor composed with `generate_report`: build the
balance and transaction histories from the Wallet Update history. -/
def Report.of_history (wallet_updates : List WalletUpdate) : Except PyError ReportMetrics :=
  Report.generate_report (wallet_updates.map (fun u => u.balance))
    (wallet_updates.map (fun u => u.transaction_dto.transaction_type))

/-! Concrete fixtures used by witness, counterexample and evaluation
theorems. -/

def walletThousand : Wallet := Wallet.postInit [(.currency ⟨"USD"⟩, 1000)] ⟨"USD"⟩

def dtoBuyAAPL : TransactionDTO :=
  { transaction_type := .BUY, asset := ⟨"AAPL", false⟩, currency := ⟨"USD"⟩,
    asset_price := 12, asset_amount := 0, transaction_date := 0, strategy_name := "s" }

def dtoBuyCheap : TransactionDTO := { dtoBuyAAPL with asset_price := 3 }

def walletWithAAPL : Wallet :=
  Wallet.postInit [(.asset ⟨"AAPL", false⟩, 5), (.currency ⟨"USD"⟩, 1000)] ⟨"USD"⟩

def dtoSellAAPL : TransactionDTO := { dtoBuyAAPL with transaction_type := .SELL }

def marketAAPL : StockMarketDict := [(⟨"AAPL", false⟩, [(0, 10), (2, 11)])]

def wuZero : WalletUpdate :=
  { time := 0, wallet_amounts := [], transaction_dto := dtoBuyAAPL, balance := 0 }

def wuThousand : WalletUpdate := { wuZero with balance := 1000 }

def walletAliasUSD : Wallet := ⟨[(.asset ⟨"USD", true⟩, 100)], ⟨"USD"⟩⟩

def dtoBuyUSDAsset : TransactionDTO :=
  { transaction_type := .BUY, asset := ⟨"USD", true⟩, currency := ⟨"USD"⟩,
    asset_price := 10, asset_amount := 1, transaction_date := 0, strategy_name := "s" }

def dtoBuyTwo : TransactionDTO :=
  { dtoBuyAAPL with asset_price := 3, asset_amount := 2 }

/-- A minimal concrete strategy for witnesses: constant STABLE prediction,
constant HOLD trigger, identity quantity managers. -/
def idleStrategy (n : String) (pr : Int) : AutomatedStrategy :=
  { name := n, trading_asset := ⟨"AAPL", false⟩, priority := pr,
    trading_algorithm := fun _ => .STABLE,
    transaction_trigger := fun _ => .HOLD,
    buy_transaction_quantity_manager := fun _ t => .ok t,
    sell_transaction_quantity_manager := fun _ t => .ok t }

def idleState (n : String) (pr : Int) : StrategyState := ⟨idleStrategy n pr, []⟩

def registeredC7 : List (Nat × StrategyState) :=
  [(0, idleState "second" 2), (1, idleState "first" 1)]

/-! Theorems settling the claims. -/

/-- C10: for every repetition count R, the repeated-predictions trigger on
an empty prediction log returns BUY (the all-INCREASE check is vacuously
true on the empty slice and is tested before the all-DECREASE check), not
HOLD. -/
theorem claim_C10 (R : Nat) :
    TransactionTriggerByRepeatedPredictions.evaluate_predictions R [] = .BUY := by
  unfold TransactionTriggerByRepeatedPredictions.evaluate_predictions pyTailSlice
  cases R <;> simp

/-- C8 counterexample: at repetition count R = 0 with the non-empty log
[INCREASE, DECREASE] the code inspects the whole log (the Python slice
`xs[-0:]` is `xs[0:]`) and returns HOLD, while the last min(0, 2) = 0
entries are vacuously all INCREASE, so the claim as stated demands BUY. -/
theorem claim_C8_counterexample :
    TransactionTriggerByRepeatedPredictions.evaluate_predictions 0
      [.INCREASE, .DECREASE] = .HOLD
    ∧ repeatedTriggerSpec 0 [.INCREASE, .DECREASE] = .BUY := by
  decide

/-- C8 (amended to repetition counts R ≥ 1): the trigger inspects the last
min(R, log length) entries of a non-empty log, returns BUY iff all of them
are INCREASE, SELL iff all of them are DECREASE, and HOLD otherwise; in
particular a log shorter than R whose entries are all INCREASE still
returns BUY. -/
theorem claim_C8 (R : Nat) (xs : List PredictionEnum) (hR : 1 ≤ R) (hxs : xs ≠ []) :
    (lastMinEntries R xs).length = min R xs.length
    ∧ TransactionTriggerByRepeatedPredictions.evaluate_predictions R xs
        = repeatedTriggerSpec R xs
    ∧ (TransactionTriggerByRepeatedPredictions.evaluate_predictions R xs = .BUY
        ↔ ∀ p ∈ lastMinEntries R xs, p = .INCREASE)
    ∧ (TransactionTriggerByRepeatedPredictions.evaluate_predictions R xs = .SELL
        ↔ ∀ p ∈ lastMinEntries R xs, p = .DECREASE)
    ∧ (xs.length < R → (∀ p ∈ xs, p = .INCREASE) →
        TransactionTriggerByRepeatedPredictions.evaluate_predictions R xs = .BUY) := by
  have hlpos : 0 < xs.length := List.length_pos.mpr hxs
  have hlen : (lastMinEntries R xs).length = min R xs.length := by
    simp [lastMinEntries, List.length_drop]
    omega
  have hR0 : ¬ R = 0 := by omega
  have heq : TransactionTriggerByRepeatedPredictions.evaluate_predictions R xs
      = repeatedTriggerSpec R xs := by
    unfold TransactionTriggerByRepeatedPredictions.evaluate_predictions
      repeatedTriggerSpec pyTailSlice lastMinEntries
    simp [hR0]
  have htne : lastMinEntries R xs ≠ [] := by
    intro hnil
    rw [hnil] at hlen
    simp at hlen
    omega
  have hexcl : ¬((∀ p ∈ lastMinEntries R xs, p = PredictionEnum.INCREASE)
      ∧ (∀ p ∈ lastMinEntries R xs, p = PredictionEnum.DECREASE)) := by
    rintro ⟨hI, hD⟩
    obtain ⟨p, hp⟩ := List.exists_mem_of_ne_nil _ htne
    have h1 := hI p hp
    have h2 := hD p hp
    rw [h1] at h2
    simp at h2
  have hIform : ((lastMinEntries R xs).all (· == PredictionEnum.INCREASE) = true)
      ↔ ∀ p ∈ lastMinEntries R xs, p = PredictionEnum.INCREASE := by
    simp
  have hDform : ((lastMinEntries R xs).all (· == PredictionEnum.DECREASE) = true)
      ↔ ∀ p ∈ lastMinEntries R xs, p = PredictionEnum.DECREASE := by
    simp
  have hBUY : repeatedTriggerSpec R xs = .BUY
      ↔ ∀ p ∈ lastMinEntries R xs, p = PredictionEnum.INCREASE := by
    rw [← hIform]
    unfold repeatedTriggerSpec
    cases hbI : (lastMinEntries R xs).all (· == PredictionEnum.INCREASE)
    · cases hbD : (lastMinEntries R xs).all (· == PredictionEnum.DECREASE) <;>
        simp [hbI, hbD]
    · simp [hbI]
  have hSELL : repeatedTriggerSpec R xs = .SELL
      ↔ ∀ p ∈ lastMinEntries R xs, p = PredictionEnum.DECREASE := by
    rw [← hDform]
    unfold repeatedTriggerSpec
    cases hbI : (lastMinEntries R xs).all (· == PredictionEnum.INCREASE)
    · cases hbD : (lastMinEntries R xs).all (· == PredictionEnum.DECREASE) <;>
        simp [hbI, hbD]
    · have hD : ¬ ∀ p ∈ lastMinEntries R xs, p = PredictionEnum.DECREASE :=
        fun hD => hexcl ⟨hIform.mp hbI, hD⟩
      simp [hbI]
      push_neg at hD
      exact hD
  refine ⟨hlen, heq, by rw [heq]; exact hBUY, by rw [heq]; exact hSELL, ?_⟩
  intro hshort hall
  have hdrop : lastMinEntries R xs = xs := by
    unfold lastMinEntries
    have : xs.length - R = 0 := by omega
    rw [this]
    exact List.drop_zero xs
  rw [heq, hBUY, hdrop]
  exact hall

/-- C8 witness: the amended theorem applied at R = 2 and the shorter
all-INCREASE log [INCREASE]. -/
theorem claim_C8_witness :
    (lastMinEntries 2 [PredictionEnum.INCREASE]).length
        = min 2 [PredictionEnum.INCREASE].length
    ∧ TransactionTriggerByRepeatedPredictions.evaluate_predictions 2 [PredictionEnum.INCREASE]
        = repeatedTriggerSpec 2 [PredictionEnum.INCREASE]
    ∧ (TransactionTriggerByRepeatedPredictions.evaluate_predictions 2 [PredictionEnum.INCREASE]
          = .BUY
        ↔ ∀ p ∈ lastMinEntries 2 [PredictionEnum.INCREASE], p = .INCREASE)
    ∧ (TransactionTriggerByRepeatedPredictions.evaluate_predictions 2 [PredictionEnum.INCREASE]
          = .SELL
        ↔ ∀ p ∈ lastMinEntries 2 [PredictionEnum.INCREASE], p = .DECREASE)
    ∧ ([PredictionEnum.INCREASE].length < 2
        → (∀ p ∈ [PredictionEnum.INCREASE], p = PredictionEnum.INCREASE)
        → TransactionTriggerByRepeatedPredictions.evaluate_predictions 2
            [PredictionEnum.INCREASE] = .BUY) :=
  claim_C8 2 [PredictionEnum.INCREASE] (by decide) (by decide)

/-- C2: evaluating the price lookup.  For a known asset the code returns
the last close at or before the requested date and returns None for a
date preceding the first observation; but for an unknown asset it raises
KeyError instead of returning None, because the dictionary subscript in
the guard (`date < self.stock_market_dict[asset].index[0]`) is evaluated
before the `asset not in self.stock_market_dict` membership test. -/
theorem claim_C2_eval :
    StockMarketHandler.get_asset_price marketAAPL ⟨"MSFT", false⟩ 5 = .error .keyError
    ∧ StockMarketHandler.get_asset_price marketAAPL ⟨"AAPL", false⟩ (-1) = .ok none
    ∧ StockMarketHandler.get_asset_price marketAAPL ⟨"AAPL", false⟩ 1 = .ok (some 10)
    ∧ StockMarketHandler.get_asset_price marketAAPL ⟨"AAPL", false⟩ 5 = .ok (some 11) := by
  decide

/-- C3 counterexample: a report over the non-empty one-element history
with balance 0 fails (ZeroDivisionError in the roi computation), refuting
"for every non-empty history the report succeeds"; and a report over the
empty history fails with the IndexError of `balance_history[0]`, not with
a dedicated empty-history error (no such error class exists in the
code). -/
theorem claim_C3_counterexample :
    Report.of_history [wuZero] = .error .zeroDivisionError
    ∧ Report.of_history [] = .error .indexError := by
  constructor
  · simp [Report.of_history, Report.generate_report, wuZero]
  · rfl

/-- C3 (amended): a report over the empty history fails with IndexError
(an unnamed indexing crash, not a dedicated empty-history error); a report
over a non-empty history fails with ZeroDivisionError when the initial
balance is 0 and succeeds otherwise. -/
theorem claim_C3 (updates : List WalletUpdate) :
    (updates = [] → Report.of_history updates = .error .indexError)
    ∧ (∀ u us, updates = u :: us → u.balance = 0 →
        Report.of_history updates = .error .zeroDivisionError)
    ∧ (∀ u us, updates = u :: us → u.balance ≠ 0 →
        ∃ r, Report.of_history updates = .ok r) := by
  refine ⟨?_, ?_, ?_⟩
  · rintro rfl
    rfl
  · rintro u us rfl hz
    simp [Report.of_history, Report.generate_report, hz]
  · rintro u us rfl hz
    simp only [Report.of_history, List.map_cons, Report.generate_report, if_neg hz]
    exact ⟨_, rfl⟩

/-- C3 witness: the amended theorem applied to the empty history and to a
one-element history with nonzero balance. -/
theorem claim_C3_witness :
    Report.of_history [] = .error .indexError
    ∧ ∃ r, Report.of_history [wuThousand] = .ok r :=
  ⟨(claim_C3 []).1 rfl,
   (claim_C3 [wuThousand]).2.2 wuThousand [] rfl (by norm_num [wuThousand, wuZero])⟩

/-- C9: applying a transaction whose asset has no entry in the ledger's
amounts mapping fails with the unknown-asset ValueError (the Python raise
happens before any mutation, which this functional embedding reflects by
producing no updated wallet at all), and applying a transaction whose
asset has an entry always succeeds. -/
theorem claim_C9 (w : Wallet) (t : TransactionDTO) :
    (lookupAmount w.amounts t.asset.name = none →
      w.update_wallet t =
        .error (.valueError ("Asset " ++ t.asset.name ++ " is not available in wallet")))
    ∧ (∀ a0, lookupAmount w.amounts t.asset.name = some a0 →
        ∃ w2, w.update_wallet t = .ok w2) := by
  constructor
  · intro h
    unfold Wallet.update_wallet
    rw [h]
  · intro a0 h
    unfold Wallet.update_wallet
    rw [h]
    by_cases hs : t.transaction_type = .SELL
    · simp [hs]
    · by_cases hb : t.transaction_type = .BUY <;> simp [hs, hb]

/-- C9 witness: the theorem applied to a wallet without the transacted
asset (error) and to a wallet holding it (success). -/
theorem claim_C9_witness :
    walletThousand.update_wallet dtoBuyAAPL =
      .error (.valueError ("Asset " ++ dtoBuyAAPL.asset.name ++ " is not available in wallet"))
    ∧ ∃ w2, walletWithAAPL.update_wallet dtoBuyAAPL = .ok w2 :=
  ⟨(claim_C9 walletThousand dtoBuyAAPL).1 (by decide),
   (claim_C9 walletWithAAPL dtoBuyAAPL).2 5 (by decide)⟩

/-- C1 counterexample: for the non-fractional asset AAPL, the fixed-amount
quantity policy on BUY with fixed spend 100, wallet balance 1000 and price
12 assigns the quantity 100/12 = 25/3 to the transaction, which is not an
integer: the truncated fixed spend is divided by the price and the
quotient is not truncated. -/
theorem claim_C1_counterexample :
    dtoBuyAAPL.asset.allow_float_amount = false
    ∧ (TransactionQuantityManagerByFixedAmount.compute_asset_amount walletThousand 100
        dtoBuyAAPL).map (fun t => t.asset_amount) = .ok (25/3)
    ∧ ((25 : ℚ)/3).den ≠ 1 := by
  refine ⟨rfl, ?_, by norm_num⟩
  simp [TransactionQuantityManagerByFixedAmount.compute_asset_amount,
    TransactionQuantityManagerByFixedAmount.raw_asset_amount,
    walletThousand, dtoBuyAAPL, Wallet.postInit, lookupAmount, pyInt, MarketKey.keyName,
    Except.map]
  norm_num [min_def]

/-- C1 (amended): the percentage policy truncates every computed quantity
toward zero to an integer (denominator 1) when the asset disallows
fractional amounts, on BUY, SELL and other kinds alike; the fixed-amount
policy truncates only the configured fixed amount before the min(), so its
SELL quantity is an integer whenever the held quantity is an integer,
while its BUY quantity (truncated spend divided by price) need not be an
integer. -/
theorem claim_C1 :
    (∀ (w : Wallet) (pct : ℚ) (t t2 : TransactionDTO),
      TransactionQuantityManagerByWalletPercentage.compute_asset_amount w pct t = .ok t2 →
      t.asset.allow_float_amount = false → t2.asset_amount.den = 1)
    ∧ (∀ (w : Wallet) (fx : ℚ) (t t2 : TransactionDTO) (a0 : ℚ),
      TransactionQuantityManagerByFixedAmount.compute_asset_amount w fx t = .ok t2 →
      t.asset.allow_float_amount = false → t.transaction_type = .SELL →
      lookupAmount w.amounts t.asset.name = some a0 → a0.den = 1 →
      t2.asset_amount.den = 1) := by
  constructor
  · intro w pct t t2 h hfl
    unfold TransactionQuantityManagerByWalletPercentage.compute_asset_amount at h
    cases hr : TransactionQuantityManagerByWalletPercentage.raw_asset_amount w pct t with
    | error e =>
      rw [hr] at h
      simp at h
    | ok a =>
      rw [hr] at h
      simp [hfl] at h
      rw [← h]
      simp
  · intro w fx t t2 a0 h hfl hsell hlk hden
    unfold TransactionQuantityManagerByFixedAmount.compute_asset_amount at h
    simp only [hfl, Bool.not_false, if_pos] at h
    unfold TransactionQuantityManagerByFixedAmount.raw_asset_amount at h
    simp [hsell, hlk] at h
    rw [← h]
    rcases le_total a0 ((pyInt fx : ℚ)) with hle | hle
    · simp [min_eq_left hle, hden]
    · simp [min_eq_right hle]

/-- C1 witness: the amended theorem applied to a percentage BUY with
wallet balance 1000, percentage 1/2 and price 3 (quantity truncated to
166) and to a fixed-amount SELL with held quantity 5 and fixed amount 100
(quantity min(5, 100) = 5). -/
theorem claim_C1_witness :
    ({ dtoBuyCheap with asset_amount := (166 : ℚ) } : TransactionDTO).asset_amount.den = 1
    ∧ ({ dtoSellAAPL with asset_amount := (5 : ℚ) } : TransactionDTO).asset_amount.den = 1 :=
  ⟨claim_C1.1 walletThousand (1/2) dtoBuyCheap _
      (by
        simp [TransactionQuantityManagerByWalletPercentage.compute_asset_amount,
          TransactionQuantityManagerByWalletPercentage.raw_asset_amount,
          walletThousand, dtoBuyCheap, dtoBuyAAPL, Wallet.postInit, lookupAmount, pyInt,
          MarketKey.keyName]
        norm_num)
      rfl,
   claim_C1.2 walletWithAAPL 100 dtoSellAAPL _ 5
      (by
        simp [TransactionQuantityManagerByFixedAmount.compute_asset_amount,
          TransactionQuantityManagerByFixedAmount.raw_asset_amount,
          walletWithAAPL, dtoSellAAPL, dtoBuyAAPL, Wallet.postInit, lookupAmount, pyInt,
          MarketKey.keyName]
        norm_num [min_def])
      rfl rfl (by decide) (by norm_num)⟩

/-- Looking a key up after an in-place dictionary increment: the
incremented key reads its old value plus the increment, every other key is
unchanged. -/
theorem lookupAmount_addAmount (m : List (MarketKey × ℚ)) (k k2 : String) (d : ℚ) :
    lookupAmount (addAmount m k d) k2 =
      if k2 = k then (lookupAmount m k2).map (fun v => v + d)
      else lookupAmount m k2 := by
  induction m with
  | nil => simp [lookupAmount, addAmount]
  | cons p m ih =>
    by_cases h1 : p.1.keyName = k
    · by_cases h2 : p.1.keyName = k2
      · have hk : k2 = k := h2.symm.trans h1
        simp [addAmount, lookupAmount, h1, h2, hk]
      · have hk : ¬ k2 = k := fun he => h2 (h1.trans he.symm)
        have hk2 : ¬ k = k2 := fun he => hk he.symm
        simp [addAmount, lookupAmount, h1, h2, hk, hk2, ih]
    · by_cases h2 : p.1.keyName = k2
      · have hk : ¬ k2 = k := fun he => h1 (h2.trans he)
        simp [addAmount, lookupAmount, h1, h2, hk]
      · simp [addAmount, lookupAmount, h1, h2, ih]

/-- C4 counterexample: Asset and Currency compare by name only, so the
asset named like the base currency aliases the base-currency entry.  The
wallet holds a single entry USD = 100; a BUY of 1 unit of the asset
named USD at price 10 leaves that entry at 100 + 1 − 10 = 91, so the
asset entry does not change by +quantity as claimed. -/
theorem claim_C4_counterexample :
    lookupAmount walletAliasUSD.amounts dtoBuyUSDAsset.asset.name = some 100
    ∧ dtoBuyUSDAsset.transaction_type = .BUY
    ∧ (walletAliasUSD.update_wallet dtoBuyUSDAsset).map
        (fun w => lookupAmount w.amounts dtoBuyUSDAsset.asset.name) = .ok (some 91)
    ∧ ((91 : ℚ) ≠ 100 + dtoBuyUSDAsset.asset_amount) := by
  refine ⟨by decide, rfl, ?_, by norm_num [dtoBuyUSDAsset]⟩
  simp [Wallet.update_wallet, walletAliasUSD, dtoBuyUSDAsset, lookupAmount, addAmount,
    MarketKey.keyName, Except.map]
  norm_num

/-- C4 (amended): provided the transaction's asset is named differently
from the base currency (same-named keys alias one dictionary entry, see
the counterexample), applying a BUY to a ledger containing the asset
changes the asset entry by +quantity and the base-currency entry by
−quantity×price, applying a SELL changes them by −quantity and
+quantity×price, and no other entry changes. -/
theorem claim_C4 (w : Wallet) (t : TransactionDTO) (a0 : ℚ)
    (hmem : lookupAmount w.amounts t.asset.name = some a0)
    (hne : t.asset.name ≠ w.base_currency.name) :
    (t.transaction_type = .BUY →
      ∃ w2, w.update_wallet t = .ok w2
        ∧ lookupAmount w2.amounts t.asset.name = some (a0 + t.asset_amount)
        ∧ lookupAmount w2.amounts w.base_currency.name =
            (lookupAmount w.amounts w.base_currency.name).map
              (fun c => c - t.asset_amount * t.asset_price)
        ∧ ∀ k, k ≠ t.asset.name → k ≠ w.base_currency.name →
            lookupAmount w2.amounts k = lookupAmount w.amounts k)
    ∧ (t.transaction_type = .SELL →
      ∃ w2, w.update_wallet t = .ok w2
        ∧ lookupAmount w2.amounts t.asset.name = some (a0 - t.asset_amount)
        ∧ lookupAmount w2.amounts w.base_currency.name =
            (lookupAmount w.amounts w.base_currency.name).map
              (fun c => c + t.asset_amount * t.asset_price)
        ∧ ∀ k, k ≠ t.asset.name → k ≠ w.base_currency.name →
            lookupAmount w2.amounts k = lookupAmount w.amounts k) := by
  constructor
  · intro hbuy
    have hupd : w.update_wallet t = .ok (Wallet.mk
        (addAmount (addAmount w.amounts t.asset.name t.asset_amount)
          w.base_currency.name (-(t.asset_amount * t.asset_price)))
        w.base_currency) := by
      unfold Wallet.update_wallet
      rw [hmem]
      simp [hbuy]
    refine ⟨_, hupd, ?_, ?_, ?_⟩
    · rw [lookupAmount_addAmount, if_neg hne, lookupAmount_addAmount, if_pos rfl, hmem]
      rfl
    · rw [lookupAmount_addAmount, if_pos rfl, lookupAmount_addAmount, if_neg hne.symm]
      cases lookupAmount w.amounts w.base_currency.name <;> simp [sub_eq_add_neg]
    · intro k hka hkb
      rw [lookupAmount_addAmount, if_neg hkb, lookupAmount_addAmount, if_neg hka]
  · intro hsell
    have hupd : w.update_wallet t = .ok (Wallet.mk
        (addAmount (addAmount w.amounts t.asset.name (-t.asset_amount))
          w.base_currency.name (t.asset_amount * t.asset_price))
        w.base_currency) := by
      unfold Wallet.update_wallet
      rw [hmem]
      simp [hsell]
    refine ⟨_, hupd, ?_, ?_, ?_⟩
    · rw [lookupAmount_addAmount, if_neg hne, lookupAmount_addAmount, if_pos rfl, hmem]
      simp [sub_eq_add_neg]
    · rw [lookupAmount_addAmount, if_pos rfl, lookupAmount_addAmount, if_neg hne.symm]
    · intro k hka hkb
      rw [lookupAmount_addAmount, if_neg hkb, lookupAmount_addAmount, if_neg hka]

/-- C4 witness: the amended theorem applied to a BUY of 2 units of AAPL at
price 3 on a wallet holding AAPL = 5 and USD = 1000. -/
theorem claim_C4_witness :
    ∃ w2, walletWithAAPL.update_wallet dtoBuyTwo = .ok w2
      ∧ lookupAmount w2.amounts dtoBuyTwo.asset.name = some (5 + dtoBuyTwo.asset_amount)
      ∧ lookupAmount w2.amounts walletWithAAPL.base_currency.name =
          (lookupAmount walletWithAAPL.amounts walletWithAAPL.base_currency.name).map
            (fun c => c - dtoBuyTwo.asset_amount * dtoBuyTwo.asset_price)
      ∧ ∀ k, k ≠ dtoBuyTwo.asset.name → k ≠ walletWithAAPL.base_currency.name →
          lookupAmount w2.amounts k = lookupAmount walletWithAAPL.amounts k :=
  (claim_C4 walletWithAAPL dtoBuyTwo 5 (by decide) (by decide)).1 rfl

/-- On a series with ascending dates, the `loc`-style truncation (a
`takeWhile`) returns exactly the rows dated at or before the cutoff. -/
theorem locUpTo_eq_filter_of_sorted (rows : List (Int × ℚ)) (d : Int)
    (hs : rows.Pairwise (fun r s => r.1 ≤ s.1)) :
    locUpTo rows d = rows.filter (fun r => decide (r.1 ≤ d)) := by
  induction rows with
  | nil => rfl
  | cons r rows ih =>
    rw [List.pairwise_cons] at hs
    obtain ⟨hr, htail⟩ := hs
    by_cases hd : r.1 ≤ d
    · have hrw := ih htail
      unfold locUpTo at hrw
      simp [locUpTo, List.takeWhile_cons, List.filter_cons, hd, hrw]
    · have hnone : rows.filter (fun s => decide (s.1 ≤ d)) = [] := by
        rw [List.filter_eq_nil_iff]
        intro s hsmem
        have hrs := hr s hsmem
        simp only [decide_eq_true_eq]
        omega
      simp [locUpTo, List.takeWhile_cons, List.filter_cons, hd, hnone]

/-- C5: every per-asset slice in every snapshot yielded by the tick
generator is the `locUpTo` truncation of that asset's series at the tick
date: it contains no observation dated after the tick date, it is a
leading segment of the series, and on a date-sorted series it is exactly
the rows dated at or before the tick date. -/
theorem claim_C5 (m : StockMarketDict) (date : Int) (snap : StockMarketDict)
    (a : Asset) (rows : List (Int × ℚ))
    (hgen : (date, snap) ∈ StockMarketHandler.stock_market_generator m)
    (hrow : (a, rows) ∈ m) :
    (a, locUpTo rows date) ∈ snap
    ∧ (∀ r ∈ locUpTo rows date, r.1 ≤ date)
    ∧ (∃ rest, locUpTo rows date ++ rest = rows)
    ∧ (rows.Pairwise (fun r s => r.1 ≤ s.1) →
        locUpTo rows date = rows.filter (fun r => decide (r.1 ≤ date))) := by
  refine ⟨?_, ?_, ?_, fun hs => locUpTo_eq_filter_of_sorted rows date hs⟩
  · unfold StockMarketHandler.stock_market_generator at hgen
    obtain ⟨d0, hd0, heq⟩ := List.mem_map.mp hgen
    cases heq
    exact List.mem_map.mpr ⟨(a, rows), hrow, rfl⟩
  · intro r hr
    have hdec := List.mem_takeWhile_imp hr
    simpa using hdec
  · refine ⟨rows.dropWhile (fun r => decide (r.1 ≤ date)), ?_⟩
    unfold locUpTo
    exact List.takeWhile_append_dropWhile _ rows

/-- C5 witness: the theorem applied to the one-asset market with rows at
dates 0 and 2, at tick date 2. -/
theorem claim_C5_witness :
    ((⟨"AAPL", false⟩ : Asset), locUpTo [((0 : Int), (10 : ℚ)), (2, 11)] 2) ∈
        ([(⟨"AAPL", false⟩, [((0 : Int), (10 : ℚ)), (2, 11)])] : StockMarketDict)
    ∧ (∀ r ∈ locUpTo [((0 : Int), (10 : ℚ)), (2, 11)] 2, r.1 ≤ 2)
    ∧ (∃ rest, locUpTo [((0 : Int), (10 : ℚ)), (2, 11)] 2 ++ rest
        = [((0 : Int), (10 : ℚ)), (2, 11)])
    ∧ (List.Pairwise (fun r s => r.1 ≤ s.1) [((0 : Int), (10 : ℚ)), (2, 11)] →
        locUpTo [((0 : Int), (10 : ℚ)), (2, 11)] 2
          = List.filter (fun r => decide (r.1 ≤ 2)) [((0 : Int), (10 : ℚ)), (2, 11)]) :=
  claim_C5 marketAAPL 2 [(⟨"AAPL", false⟩, [(0, 10), (2, 11)])] ⟨"AAPL", false⟩
    [(0, 10), (2, 11)] (by decide) (by decide)

/-- C6: on a tick where the strategy's asset slice is non-empty but its
staleness (tick date minus the slice's last observed date, in whole days)
exceeds the configured bound, the strategy is skipped entirely: the
wallet, the history and the strategy's prediction log come out of the loop
body unchanged, and no transaction is produced; the configured default
bound is 2. -/
theorem claim_C6 (handler smd : StockMarketDict) (maxdiff current_date : Int)
    (w : Wallet) (hist : List WalletUpdate) (s : StrategyState)
    (data : List (Int × ℚ)) (lastRow : Int × ℚ)
    (hlook : lookupSeries smd s.cfg.trading_asset.name = some data)
    (hlast : data.getLast? = some lastRow)
    (hstale : maxdiff < current_date - lastRow.1) :
    OnlineSimulation.process_strategy handler maxdiff current_date smd w hist s
      = .ok (w, hist, s)
    ∧ OnlineSimulation.default_max_transaction_date_difference = 2 := by
  refine ⟨?_, rfl⟩
  have hne : data ≠ [] := by
    intro h
    rw [h] at hlast
    simp at hlast
  have hlen0 : ¬ data.length = 0 := fun h => hne (List.length_eq_zero.mp h)
  unfold OnlineSimulation.process_strategy
  rw [hlook]
  simp [hlen0, hlast, hstale]

def staleMarket : StockMarketDict := [(⟨"AAPL", false⟩, [(0, 10)])]

/-- C6 witness: the theorem applied to a strategy on AAPL whose only
observation is at date 0, at tick date 5 with bound 2 (staleness 5 > 2). -/
theorem claim_C6_witness :
    OnlineSimulation.process_strategy marketAAPL 2 5 staleMarket walletThousand []
        (idleState "a" 1) = .ok (walletThousand, [], idleState "a" 1)
    ∧ OnlineSimulation.default_max_transaction_date_difference = 2 :=
  claim_C6 marketAAPL staleMarket 2 5 walletThousand [] (idleState "a" 1)
    [(0, 10)] (0, 10) (by decide) (by decide) (by decide)

/-- C7: `OnlineSimulation.process_tick` visits the strategies, and applies
their resulting transactions, in the order of the stable
ascending-priority sort of the registration-indexed strategy list: that
order is ascending in priority, at every priority level the registration
order is preserved (the filter at each priority is unchanged), and a
priority-1 strategy comes strictly before a priority-2 strategy
irrespective of registration order; the tick's fold is literally over that
sorted list. -/
theorem claim_C7 (l : List (Nat × StrategyState)) :
    List.Sorted priorityLe (List.insertionSort priorityLe l)
    ∧ (∀ p : Int,
        (List.insertionSort priorityLe l).filter (fun a => decide (a.2.cfg.priority = p))
          = l.filter (fun a => decide (a.2.cfg.priority = p)))
    ∧ (∀ (i j : Nat) (a b : Nat × StrategyState),
        (List.insertionSort priorityLe l).get? i = some a →
        (List.insertionSort priorityLe l).get? j = some b →
        a.2.cfg.priority = 1 → b.2.cfg.priority = 2 → i < j)
    ∧ (∀ (handler : StockMarketDict) (maxdiff : Int) (st : SimState) (current_date : Int)
        (smd : StockMarketDict),
        OnlineSimulation.process_tick handler maxdiff st current_date smd
          = (List.insertionSort priorityLe st.strategies.enum).foldlM
              (fun acc p => do
                let r ← OnlineSimulation.process_strategy handler maxdiff
                  current_date smd acc.wallet acc.history p.2
                Except.ok { wallet := r.1, history := r.2.1,
                            strategies := acc.strategies.set p.1 r.2.2 })
              st) := by
  have hsorted := List.sorted_insertionSort priorityLe l
  refine ⟨hsorted, ?_, ?_, fun _ _ _ _ _ => rfl⟩
  · intro p
    have hpair : (l.filter (fun a => decide (a.2.cfg.priority = p))).Pairwise priorityLe := by
      apply List.pairwise_of_forall_mem_list
      intro a ha b hb
      have ha2 := (List.mem_filter.mp ha).2
      have hb2 := (List.mem_filter.mp hb).2
      simp only [decide_eq_true_eq] at ha2 hb2
      unfold priorityLe
      rw [ha2, hb2]
    have hsub : List.Sublist (l.filter (fun a => decide (a.2.cfg.priority = p)))
        (List.insertionSort priorityLe l) :=
      List.sublist_insertionSort hpair (List.filter_sublist l)
    have hself : (l.filter (fun a => decide (a.2.cfg.priority = p))).filter
        (fun a => decide (a.2.cfg.priority = p))
        = l.filter (fun a => decide (a.2.cfg.priority = p)) := by
      rw [List.filter_eq_self]
      intro a ha
      exact (List.mem_filter.mp ha).2
    have hsub2 : List.Sublist (l.filter (fun a => decide (a.2.cfg.priority = p)))
        ((List.insertionSort priorityLe l).filter
          (fun a => decide (a.2.cfg.priority = p))) :=
      hself ▸ List.Sublist.filter (fun a => decide (a.2.cfg.priority = p)) hsub
    have hperm : ((List.insertionSort priorityLe l).filter
        (fun a => decide (a.2.cfg.priority = p))).Perm
          (l.filter (fun a => decide (a.2.cfg.priority = p))) :=
      (List.perm_insertionSort priorityLe l).filter (fun a => decide (a.2.cfg.priority = p))
    exact (hsub2.eq_of_length hperm.length_eq.symm).symm
  · intro i j a b ha hb hpa hpb
    by_contra hij
    push_neg at hij
    obtain ⟨hilen, hageteq⟩ := List.get?_eq_some.mp ha
    obtain ⟨hjlen, hbgeteq⟩ := List.get?_eq_some.mp hb
    rcases Nat.lt_or_ge j i with hlt | hge
    · have hle := List.pairwise_iff_get.mp hsorted ⟨j, hjlen⟩ ⟨i, hilen⟩ hlt
      rw [hbgeteq, hageteq] at hle
      unfold priorityLe at hle
      rw [hpa, hpb] at hle
      omega
    · have hij2 : i = j := by omega
      subst hij2
      rw [ha] at hb
      injection hb with hab
      rw [hab] at hpa
      rw [hpa] at hpb
      exact absurd hpb (by decide)

/-- C7 witness: the theorem applied to the two-strategy registration list
where the priority-2 strategy is registered first: the sorted visit order
is ascending, the per-priority filters are unchanged, and position 0
(priority 1) comes before position 1 (priority 2). -/
theorem claim_C7_witness :
    List.Sorted priorityLe (List.insertionSort priorityLe registeredC7)
    ∧ (List.insertionSort priorityLe registeredC7).filter
        (fun a => decide (a.2.cfg.priority = 2))
        = registeredC7.filter (fun a => decide (a.2.cfg.priority = 2))
    ∧ (0 : Nat) < 1 :=
  ⟨(claim_C7 registeredC7).1, (claim_C7 registeredC7).2.1 2,
   (claim_C7 registeredC7).2.2.1 0 1 (1, idleState "first" 1) (0, idleState "second" 2)
     rfl rfl rfl rfl⟩
